import Mathlib

/-!
Verification development for the configuration loader of the `tinty` repository
(`src/config.rs`).  The Rust code is shallowly embedded: the pure logic of
`Config::read` (defaulting, uniqueness checking, home-directory expansion,
path validation, shell-placeholder validation) is translated into executable
Lean definitions, with the external collaborators (filesystem, home-directory
resolver, URL-syntax validator, TOML parser) supplied as explicit oracle
parameters, exactly as the specification describes them ("consumed external
collaborators ... interfaces only").
-/

/-! ## Character-list string primitives

Core `String` functions such as `String.trim` and `String.startsWith` are not
kernel-reducible (they go through `Substring` byte indices), so the string
operations the Rust code uses (`str::trim`, `str::starts_with`,
`str::contains`, `str::replacen`) are given directly as executable functions
on the character list `String.data`. -/

/-- Boolean prefix test on character lists (the semantics of Rust
`str::starts_with` for string patterns). -/
def listPrefixOf : List Char → List Char → Bool
  | [], _ => true
  | _ :: _, [] => false
  | p :: ps, c :: cs => p = c && listPrefixOf ps cs

/-- Boolean infix (substring) test on character lists (the semantics of Rust
`str::contains` for string patterns). -/
def listInfixOf (pat : List Char) : List Char → Bool
  | [] => listPrefixOf pat []
  | c :: cs => listPrefixOf pat (c :: cs) || listInfixOf pat cs

/-- Rust `str::starts_with`. -/
def strStartsWith (s pre : String) : Bool := listPrefixOf pre.data s.data

/-- Rust `str::contains` (substring containment). -/
def strContains (s pat : String) : Bool := listInfixOf pat.data s.data

/-- Whitespace predicate used by trimming. -/
def wsp (c : Char) : Bool := c.isWhitespace

/-- Trim whitespace from both ends of a character list. -/
def trimChars (cs : List Char) : List Char :=
  ((cs.dropWhile wsp).reverse.dropWhile wsp).reverse

/-- Rust `str::trim`: remove leading and trailing whitespace. -/
def strTrim (s : String) : String := ⟨trimChars s.data⟩

/-- Replace the first (leftmost) occurrence of `pat` by `repl`
(the semantics of Rust `str::replacen(pat, repl, 1)`). -/
def replacenOnceChars (pat repl : List Char) : List Char → List Char
  | [] => []
  | c :: cs =>
    if listPrefixOf pat (c :: cs) then repl ++ (c :: cs).drop pat.length
    else c :: replacenOnceChars pat repl cs

/-- Rust `str::replacen(pat, repl, 1)` on strings. -/
def replacenOnce (s pat repl : String) : String :=
  ⟨replacenOnceChars pat.data repl.data s.data⟩

/-! ## Data model (src/config.rs lines 12-32, 60-68) -/

/-- Modelled from the spec: the external scheme-system enumeration (from the
`tinted_builder` crate, declared only as a dependency of this repository): a
fixed closed set of scheme-format variants with a defined default variant,
the legacy single-variant Base16 format (`SchemeSystem::default()` is
`Base16`), and fixed lowercase string representations. -/
inductive SchemeSystem
  | base16
  | base24
deriving DecidableEq, Repr

/-- The default scheme-system variant (`SchemeSystem::default()`). -/
def SchemeSystem.default : SchemeSystem := .base16

/-- The fixed string representation of a scheme-system variant
(its `Display` form). -/
def SchemeSystem.toStr : SchemeSystem → String
  | .base16 => "base16"
  | .base24 => "base24"

/-- Structure `ConfigItem` (src/config.rs lines 21-32). -/
structure ConfigItem where
  name : String
  path : String
  hook : Option String
  themes_dir : String
  supported_systems : Option (List SchemeSystem)
  theme_file_extension : Option String
deriving DecidableEq, Repr

/-- Structure `Config` (src/config.rs lines 61-68). -/
structure Config where
  shell : Option String
  default_scheme : Option String
  items : Option (List ConfigItem)
  hooks : Option (List String)
deriving DecidableEq, Repr

/-- The error cases `Config::read` can return (src/config.rs: the `anyhow!`
sites, classified as in the specification's error taxonomy). -/
inductive ConfigError
  | pathIsDirectory (p : String)
  | parseError
  | duplicateItemName (n : String)
  | homeDirUnresolvable (p : String)
  | invalidItemPath (p : String)
  | missingShellPlaceholder
deriving DecidableEq, Repr

instance {ε α : Type} [DecidableEq ε] [DecidableEq α] : DecidableEq (Except ε α)
  | .ok a, .ok b =>
    if h : a = b then .isTrue (by rw [h])
    else .isFalse (fun hc => by cases hc; exact h rfl)
  | .error e, .error f =>
    if h : e = f then .isTrue (by rw [h])
    else .isFalse (fun hc => by cases hc; exact h rfl)
  | .ok _, .error _ => .isFalse (fun hc => by cases hc)
  | .error _, .ok _ => .isFalse (fun hc => by cases hc)

/-- The human-readable message of each error, mirroring the `anyhow!` format
strings of src/config.rs (the parse-error message, whose exact wording pulls
in a constant from a file outside the embedded one, is abbreviated; no claim
depends on it). -/
def ConfigError.message : ConfigError → String
  | .pathIsDirectory p =>
    "The provided config path is a directory and not a file: " ++ p
  | .parseError =>
    "Could not parse the configuration file. Check if it is syntactically correct"
  | .duplicateItemName n =>
    "config.toml item.name should be unique values, but \"" ++ n ++
    "\" is used for more than 1 item.name. Please change this to a unique value."
  | .homeDirUnresolvable p =>
    "Unable to determine a home directory for \"" ++ p ++
    "\", please use an absolute path instead"
  | .invalidItemPath p =>
    "One of your config.toml items has an invalid `path` value. \"" ++ p ++
    "\" is not a valid url and is not a path to an existing local directory"
  | .missingShellPlaceholder =>
    "The configured shell does not contain the required command placeholder " ++
    "\'\x7b\x7d\'. Check the default file or github for config examples."

/-! ## Constants (src/config.rs lines 12-18) -/

/-- Constant `DEFAULT_CONFIG_SHELL` (src/config.rs line 12): the literal
`sh -c '{}'` (braces written as escapes). -/
def DEFAULT_CONFIG_SHELL : String := "sh -c \'\x7b\x7d\'"

/-- The two-character placeholder `{}` that the effective shell must
contain (src/config.rs line 156). -/
def SHELL_PLACEHOLDER : String := "\x7b\x7d"

/-- Constant `BASE16_SHELL_REPO_URL` (src/config.rs line 15). -/
def BASE16_SHELL_REPO_URL : String := "https://github.com/tinted-theming/tinted-shell"

/-- Constant `BASE16_SHELL_REPO_NAME` (src/config.rs line 16). -/
def BASE16_SHELL_REPO_NAME : String := "tinted-shell"

/-- Constant `BASE16_SHELL_THEMES_DIR` (src/config.rs line 17). -/
def BASE16_SHELL_THEMES_DIR : String := "scripts"

/-- Constant `BASE16_SHELL_HOOK` (src/config.rs line 18). -/
def BASE16_SHELL_HOOK : String := ". %f"

/-- The built-in default item `base16_shell_config_item`
(src/config.rs lines 104-111). -/
def base16ShellConfigItem : ConfigItem :=
  { path := BASE16_SHELL_REPO_URL
    name := BASE16_SHELL_REPO_NAME
    themes_dir := BASE16_SHELL_THEMES_DIR
    hook := some BASE16_SHELL_HOOK
    supported_systems := some [SchemeSystem.base16]
    theme_file_extension := none }

/-! ## External collaborators as oracles -/

/-- The external collaborators `Config::read` consults, as the specification
lists them: a home-directory resolver (`home::home_dir`), a directory-existence
check (`Path::is_dir`), a URL-syntax validator (`Url::parse`, `true` meaning
the parse succeeds), and the TOML deserializer (`toml::from_str`, `none`
meaning a parse failure). -/
structure Env where
  homeDir : Option String
  isDir : String → Bool
  urlOk : String → Bool
  parse : String → Option Config

/-- The state of the config file on disk: whether the path exists, whether it
is a regular file, and what `fs::read_to_string` returns (`none` meaning the
read fails, as for a nonexistent path). -/
structure FS where
  path : String
  pathExists : Bool
  isFile : Bool
  readContent : Option String

/-! ## The embedded `Config::read` (src/config.rs lines 70-165) -/

/-- Loop of `ensure_item_name_is_unique` (src/config.rs lines 73-77): `seen`
is the set of names inserted so far. -/
def ensureUniqueGo (seen : List String) : List ConfigItem → Except ConfigError Unit
  | [] => .ok ()
  | item :: rest =>
    if item.name ∈ seen then .error (.duplicateItemName item.name)
    else ensureUniqueGo (item.name :: seen) rest

/-- Function `ensure_item_name_is_unique` (src/config.rs lines 70-80). -/
def ensureItemNameIsUnique (items : List ConfigItem) : Except ConfigError Unit :=
  ensureUniqueGo [] items

/-- Step "Set default `system` property for missing systems"
(src/config.rs lines 126-128). -/
def applyDefaultSystems (item : ConfigItem) : ConfigItem :=
  if item.supported_systems.isNone then
    { item with supported_systems := some [SchemeSystem.default] }
  else item

/-- Step "Replace `~/` with absolute home path" (src/config.rs lines 130-145):
the trimmed path is inspected; when it starts with `~/` the whole stored path
becomes the trimmed path with its first `~/` occurrence replaced by the home
directory plus `/` (`replacen(.., 1)`); otherwise the item is left unchanged
(in particular its path stays untrimmed). -/
def rewriteTilde (env : Env) (item : ConfigItem) : Except ConfigError ConfigItem :=
  let trimmed := strTrim item.path
  if strStartsWith trimmed "~/" then
    match env.homeDir with
    | some h => .ok { item with path := replacenOnce trimmed "~/" (h ++ "/") }
    | none => .error (.homeDirUnresolvable item.path)
  else .ok item

/-- Step "Return Err if path is not a valid url or an existing directory path"
(src/config.rs lines 147-152). -/
def checkPath (env : Env) (item : ConfigItem) : Except ConfigError ConfigItem :=
  if !env.urlOk item.path && !env.isDir item.path then
    .error (.invalidItemPath item.path)
  else .ok item

/-- The body of the per-item `for` loop (src/config.rs lines 125-153). -/
def normalizeItem (env : Env) (item : ConfigItem) : Except ConfigError ConfigItem :=
  match rewriteTilde env (applyDefaultSystems item) with
  | .error e => .error e
  | .ok item2 => checkPath env item2

/-- The `for` loop over the items with early `return Err`
(src/config.rs lines 125-153). -/
def mapItems (env : Env) : List ConfigItem → Except ConfigError (List ConfigItem)
  | [] => .ok []
  | item :: rest =>
    match normalizeItem env item with
    | .error e => .error e
    | .ok item2 =>
      match mapItems env rest with
      | .error e => .error e
      | .ok rest2 => .ok (item2 :: rest2)

/-- Step "Add default `item` if no items exist" (src/config.rs lines 113-121):
existing items are checked for name uniqueness, a wholly absent `items` key is
replaced by the single built-in default item. -/
def effItems (config : Config) : Except ConfigError (List ConfigItem) :=
  match config.items with
  | some items =>
    match ensureItemNameIsUnique items with
    | .error e => .error e
    | .ok _ => .ok items
  | none => .ok [base16ShellConfigItem]

/-- The validation/normalization part of `Config::read`
(src/config.rs lines 99-163), operating on the draft `Config` produced by the
TOML deserializer: resolve the effective shell, default/uniqueness-check the
items, run the per-item loop, then check the shell placeholder and store the
effective shell. -/
def Config.validate (env : Env) (config : Config) : Except ConfigError Config :=
  let shell := config.shell.getD DEFAULT_CONFIG_SHELL
  match effItems config with
  | .error e => .error e
  | .ok items0 =>
    match mapItems env items0 with
    | .error e => .error e
    | .ok items =>
      if strContains shell SHELL_PLACEHOLDER then
        .ok { config with items := some items, shell := some shell }
      else .error .missingShellPlaceholder

/-- Function `Config::read` (src/config.rs lines 83-164): the directory check, the
read with `unwrap_or("")`, the TOML parse, then validation. -/
def Config.read (fs : FS) (env : Env) : Except ConfigError Config :=
  if fs.pathExists && !fs.isFile then .error (.pathIsDirectory fs.path)
  else
    let contents := fs.readContent.getD ""
    match env.parse contents with
    | none => .error .parseError
    | some config => Config.validate env config

/-! ## Textual re-serialization, the `Display` implementations
(src/config.rs lines 34-58 and 167-193)

Each `writeln!` of the Rust code emits one line followed by a newline (the
final `write!` of an item is followed by the newline of the `writeln!` that
prints the item inside `Config`'s `Display`), so rendering is embedded as a
list of lines joined with a terminating `"\n"` after each line. -/

/-- System list rendering of `ConfigItem::fmt` (src/config.rs lines 37-45):
each variant quoted, joined with a comma and a space. -/
def renderSystems : List SchemeSystem → String
  | [] => ""
  | [s] => "\"" ++ s.toStr ++ "\""
  | s :: rest => "\"" ++ s.toStr ++ "\", " ++ renderSystems rest

/-- Lines written by `ConfigItem::fmt` (src/config.rs lines 34-58): a blank
line, the table header, `name`, `path`, `hook` only when the unwrapped hook is
nonempty, the bracketed system list (defaulted when unset), and `themes-dir`. -/
def itemLines (item : ConfigItem) : List String :=
  let hook := item.hook.getD ""
  let systemText := renderSystems (item.supported_systems.getD [SchemeSystem.default])
  [""] ++ ["[[items]]"] ++
  ["name = \"" ++ item.name ++ "\""] ++
  ["path = \"" ++ item.path ++ "\""] ++
  (if hook = "" then [] else ["hook = \"" ++ hook ++ "\""]) ++
  ["supported-systems = [" ++ systemText ++ "]"] ++
  ["themes-dir = \"" ++ item.themes_dir ++ "\""]

/-- Lines written by `Config::fmt` (src/config.rs lines 167-193): the shell
line (literal `None` when unset), the `default-scheme` line only when present,
then every item's lines; the `hooks` field is never rendered. -/
def configLines (c : Config) : List String :=
  ["shell = \"" ++ c.shell.getD "None" ++ "\""] ++
  (if c.default_scheme.isSome then
    ["default-scheme = \"" ++ c.default_scheme.getD "" ++ "\""]
  else []) ++
  ((c.items.getD []).map itemLines).flatten

/-- Join lines, each followed by a newline. -/
def linesText : List String → String
  | [] => ""
  | l :: ls => l ++ "\n" ++ linesText ls

/-- The full `Display` output of a `Config` (src/config.rs lines 167-193). -/
def renderConfig (c : Config) : String := linesText (configLines c)

/-! ## Reload of rendered text

The TOML deserializer itself is a third-party collaborator (the `toml`
crate), so reloading rendered text is settled against an executable model of
it, restricted to the table-of-tables documents `Display` emits. -/

/-- Split a character list at every occurrence of `sep` (the separators are
consumed; a trailing separator yields a trailing empty part). -/
def splitOnChar (sep : Char) : List Char → List (List Char)
  | [] => [[]]
  | c :: cs =>
    let r := splitOnChar sep cs
    if c = sep then [] :: r
    else (c :: r.headD []) :: r.tail

/-- Key of the rendered shell line. -/
def keyShell : List Char := "shell = \"".data

/-- Key of the rendered default-scheme line. -/
def keyScheme : List Char := "default-scheme = \"".data

/-- Key of a rendered item name line. -/
def keyName : List Char := "name = \"".data

/-- Key of a rendered item path line. -/
def keyPath : List Char := "path = \"".data

/-- Key of a rendered item hook line. -/
def keyHook : List Char := "hook = \"".data

/-- Key of a rendered supported-systems line. -/
def keySystems : List Char := "supported-systems = [".data

/-- Key of a rendered themes-dir line. -/
def keyThemes : List Char := "themes-dir = \"".data

/-- Header line of a rendered item table. -/
def headerItems : List Char := "[[items]]".data

/-- Remove a literal key from the front of a line, or fail. -/
def dropPref : List Char → List Char → Option (List Char)
  | [], l => some l
  | _ :: _, [] => none
  | p :: ps, c :: cs => if p = c then dropPref ps cs else none

/-- Strip a leading key and a trailing closing delimiter from a line,
returning the enclosed value. -/
def stripDelimited (key : List Char) (last : Char) (l : List Char) : Option (List Char) :=
  match dropPref key l with
  | none => none
  | some rest =>
    match rest.getLast? with
    | some c => if c = last then some rest.dropLast else none
    | none => none

/-- Parse the inside of a rendered `supported-systems` bracket: quoted
variant names separated by a comma and a space. -/
def parseSystems : List Char → Option (List SchemeSystem)
  | [] => some []
  | '"' :: 'b' :: 'a' :: 's' :: 'e' :: '1' :: '6' :: '"' :: [] => some [.base16]
  | '"' :: 'b' :: 'a' :: 's' :: 'e' :: '1' :: '6' :: '"' :: ',' :: ' ' :: rest =>
    (parseSystems rest).map (.base16 :: ·)
  | '"' :: 'b' :: 'a' :: 's' :: 'e' :: '2' :: '4' :: '"' :: [] => some [.base24]
  | '"' :: 'b' :: 'a' :: 's' :: 'e' :: '2' :: '4' :: '"' :: ',' :: ' ' :: rest =>
    (parseSystems rest).map (.base24 :: ·)
  | _ => none

/-- Parse a sequence of rendered item tables followed by the final empty
line: each table is a blank line, the header, `name`, `path`, an optional
`hook`, `supported-systems`, `themes-dir`. -/
def parseItemBlocks : List (List Char) → Option (List ConfigItem)
  | [[]] => some []
  | [] :: lh :: ln :: lp :: l4 :: l5 :: rest =>
    if lh = headerItems then
      match stripDelimited keyName '"' ln, stripDelimited keyPath '"' lp with
      | some n, some p =>
        (match stripDelimited keyHook '"' l4 with
         | some h =>
           (match rest with
            | l6 :: rest2 =>
              (match stripDelimited keySystems ']' l5, stripDelimited keyThemes '"' l6 with
               | some sysChars, some t =>
                 (match parseSystems sysChars with
                  | some syss =>
                    (parseItemBlocks rest2).map
                      (fun more => ⟨⟨n⟩, ⟨p⟩, some ⟨h⟩, ⟨t⟩, some syss, none⟩ :: more)
                  | none => none)
               | _, _ => none)
            | [] => none)
         | none =>
           (match stripDelimited keySystems ']' l4, stripDelimited keyThemes '"' l5 with
            | some sysChars, some t =>
              (match parseSystems sysChars with
               | some syss =>
                 (parseItemBlocks rest).map
                   (fun more => ⟨⟨n⟩, ⟨p⟩, none, ⟨t⟩, some syss, none⟩ :: more)
               | none => none)
            | _, _ => none))
      | _, _ => none
    else none
  | _ => none

/-- Parse the line list of a rendered document: the shell line, an optional
default-scheme line, then item tables; a document with no item tables
deserializes with an absent `items` key, and the `hooks` key is absent from
every rendered document. -/
def parseLs : List (List Char) → Option Config
  | [] => none
  | l0 :: rest =>
    match stripDelimited keyShell '"' l0 with
    | none => none
    | some sh =>
      match rest with
      | [] => none
      | l1 :: rest2 =>
        match stripDelimited keyScheme '"' l1 with
        | some d =>
          (match parseItemBlocks rest2 with
           | some items =>
             some ⟨some ⟨sh⟩, some ⟨d⟩, if items.isEmpty then none else some items, none⟩
           | none => none)
        | none =>
          (match parseItemBlocks rest with
           | some items =>
             some ⟨some ⟨sh⟩, none, if items.isEmpty then none else some items, none⟩
           | none => none)

/-- Modelled from the spec: the TOML loader (the third-party `toml` crate,
absent from the embedded sources) restricted to the table-of-tables documents
that `Display` emits, as described by the specification's file-format table: a
root table with `shell` and optional `default-scheme` strings followed by an
`items` array of tables with `name`, `path`, optional `hook`,
`supported-systems`, and `themes-dir`; an absent array deserializes to an
absent `items` field. -/
def parseRendered (s : String) : Option Config :=
  parseLs (splitOnChar '\n' s.data)

/-! ## Predicates for the round-trip statement -/

/-- Decide that a character does not occur in a list. -/
def noChar (c : Char) : List Char → Bool
  | [] => true
  | x :: xs => !(x = c) && noChar c xs

/-- A string that is rendered verbatim inside one quoted line: it must
contain no quote and no newline. -/
def goodStr (s : String) : Bool := noChar '"' s.data && noChar '\n' s.data

/-- Items whose rendering is reloadable: quote/newline-free strings, no
empty hook (an empty hook line is omitted), and a present system list. -/
def renderableItemB (it : ConfigItem) : Bool :=
  goodStr it.name && goodStr it.path && goodStr it.themes_dir &&
  (match it.hook with
   | none => true
   | some h => goodStr h && !(h = "")) &&
  it.supported_systems.isSome

/-- Configs whose rendering is reloadable: a set shell (an unset shell
renders as the placeholder `None`), quote/newline-free strings, and a
present items list. -/
def renderableB (c : Config) : Bool :=
  (match c.shell with
   | some s => goodStr s
   | none => false) &&
  (match c.default_scheme with
   | some d => goodStr d
   | none => true) &&
  (match c.items with
   | some items => items.all renderableItemB
   | none => false)

/-- Fields that `Display` does not render and that therefore come back unset
on reload: an item's `theme_file_extension`, and a `hook` that unwraps to the
empty string. -/
def eraseItemUnrendered (it : ConfigItem) : ConfigItem :=
  { it with
    theme_file_extension := none
    hook := if it.hook.getD "" = "" then none else it.hook }

/-- The reload image of a config: `hooks` is never rendered, an empty items
list renders no tables and reloads as an absent `items` key, and each item
loses its unrendered fields. -/
def eraseUnrendered (c : Config) : Config :=
  { c with
    hooks := none
    items :=
      match c.items with
      | some l => if l.isEmpty then none else some (l.map eraseItemUnrendered)
      | none => none }

/-- Conditions under which validation returns a config unchanged: a shell
containing the placeholder, unique item names, and items whose systems are
set, whose trimmed paths do not start with a tilde, and whose paths pass the
URL-or-directory check. -/
def revalidatableB (env : Env) (c : Config) : Bool :=
  (match c.shell with
   | some s => strContains s SHELL_PLACEHOLDER
   | none => false) &&
  (match c.items with
   | some items =>
     decide (ensureItemNameIsUnique items = .ok ()) &&
     items.all (fun it =>
       !strStartsWith (strTrim it.path) "~/" &&
       (env.urlOk it.path || env.isDir it.path) &&
       it.supported_systems.isSome)
   | none => false)

/-! ## Auxiliary definitions for the round-trip proofs -/

/-- Character stream of a line list: every line followed by a newline
character (the stream `Display` actually produces). -/
def linesData : List String → List Char
  | [] => []
  | l :: ls => l.data ++ '\n' :: linesData ls

/-- Character lines of a rendered item sequence. -/
def itemsLinesData : List ConfigItem → List (List Char)
  | [] => []
  | it :: rest => (itemLines it).map String.data ++ itemsLinesData rest

/-! ## Concrete fixtures used by counterexamples and witnesses -/

/-- Item with only the required fields set (hook, systems, extension unset,
a fixed themes directory). -/
def mkItem (n p : String) : ConfigItem :=
  { name := n, path := p, hook := none, themes_dir := "t"
    supported_systems := none, theme_file_extension := none }

/-- Environment in which every path is a directory and every path is a
well-formed URL, with a resolvable home directory. -/
def envT : Env :=
  { homeDir := some "/home/u", isDir := fun _ => true, urlOk := fun _ => true
    parse := fun _ => none }

/-- Environment in which no path is a directory, no path is a well-formed
URL, and the home directory is unresolvable. -/
def envF : Env :=
  { homeDir := none, isDir := fun _ => false, urlOk := fun _ => false
    parse := fun _ => none }

/-- Environment in which exactly the path string `/tmp` names an existing
directory and nothing parses as a URL. -/
def env6 : Env :=
  { homeDir := none, isDir := fun s => s == "/tmp", urlOk := fun _ => false
    parse := fun _ => none }

/-- Environment in which exactly `/home/u/themes` is an existing directory
and the home directory is `/home/u`. -/
def env5w : Env :=
  { homeDir := some "/home/u", isDir := fun s => s == "/home/u/themes"
    urlOk := fun _ => false, parse := fun _ => none }

/-- Environment whose URL validator accepts exactly the canonical
tinted-shell repository URL (as the real `Url::parse` does) and whose TOML
parser maps the empty document to the all-absent draft (as the real
`toml::from_str` does). -/
def env8 : Env :=
  { homeDir := none, isDir := fun _ => false
    urlOk := fun s => s == BASE16_SHELL_REPO_URL
    parse := fun s =>
      if s = "" then
        some { shell := none, default_scheme := none, items := none, hooks := none }
      else none }

/-- Draft config with no fields set, the parse of an empty document. -/
def cfgEmptyDraft : Config :=
  { shell := none, default_scheme := none, items := none, hooks := none }

/-- Draft config with a shell lacking the placeholder and no items key. -/
def cfgNoPh : Config :=
  { shell := some "zsh", default_scheme := none, items := none, hooks := none }

/-- Draft config with a good shell and one item whose path is invalid in
`envF`. -/
def cfgGoodShellBadItem : Config :=
  { shell := some DEFAULT_CONFIG_SHELL, default_scheme := none
    items := some [mkItem "a" "bad"], hooks := none }

/-- Draft config with two items with distinct names and two invalid paths. -/
def cfgTwoBad : Config :=
  { shell := none, default_scheme := none
    items := some [mkItem "a" "bad1", mkItem "b" "bad2"], hooks := none }

/-- Draft config whose first item has an invalid path and whose second item
has a tilde path. -/
def cfgBadThenTilde : Config :=
  { shell := none, default_scheme := none
    items := some [mkItem "a" "bad", mkItem "b" "~/x"], hooks := none }

/-- Draft config with a single item whose untrimmed path has surrounding
spaces around `/tmp`. -/
def cfgSpacePath : Config :=
  { shell := none, default_scheme := none
    items := some [mkItem "a" " /tmp "], hooks := none }

/-- Draft config with a single item carrying an explicitly empty
supported-systems list. -/
def cfgEmptySystems : Config :=
  { shell := none, default_scheme := none
    items := some [{ mkItem "a" "/tmp" with supported_systems := some [] }]
    hooks := none }

/-- Result of loading `cfgEmptySystems` in `envT`. -/
def cfgEmptySystemsOut : Config :=
  { cfgEmptySystems with shell := some DEFAULT_CONFIG_SHELL }

/-- Draft config with two items sharing the name `a`. -/
def cfgDupNames : Config :=
  { shell := none, default_scheme := none
    items := some [mkItem "a" "/t1", mkItem "a" "/t2"], hooks := none }

/-- Draft config with one tilde-path item. -/
def cfgTildeOnly : Config :=
  { shell := none, default_scheme := none
    items := some [mkItem "a" "~/themes"], hooks := none }

/-- Result of loading `cfgTildeOnly` in `env5w`: the tilde path is expanded
and the system list defaulted. -/
def cfgTildeOnlyOut : Config :=
  { shell := some DEFAULT_CONFIG_SHELL, default_scheme := none
    items := some [{ mkItem "a" "/home/u/themes" with
                     supported_systems := some [SchemeSystem.base16] }]
    hooks := none }

/-- Draft config with an empty items array and a shell containing the
placeholder. -/
def cfgEmptyItems : Config :=
  { shell := some "sh \x7b\x7d", default_scheme := none
    items := some [], hooks := none }

/-- Draft config with only an empty items array. -/
def cfgEmptyItemsNoShell : Config :=
  { shell := none, default_scheme := none, items := some [], hooks := none }

/-- Valid loaded config carrying a root `hooks` list and an item
`theme-file-extension`, the two fields `Display` never renders. -/
def cfgWithHooks : Config :=
  { shell := some DEFAULT_CONFIG_SHELL, default_scheme := none
    items := some [{ name := "vim", path := "/tmp", hook := none
                     themes_dir := "colors"
                     supported_systems := some [SchemeSystem.base16]
                     theme_file_extension := some ".vim" }]
    hooks := some ["echo hi"] }

/-- The config `cfgWithHooks` with its unrendered fields cleared: it renders
to exactly the same text. -/
def cfgWithoutHooks : Config :=
  { cfgWithHooks with hooks := none }

/-- The reload image of `cfgWithHooks`: hooks gone and the item extension
gone. -/
def cfgReloaded : Config :=
  { shell := some DEFAULT_CONFIG_SHELL, default_scheme := none
    items := some [{ name := "vim", path := "/tmp", hook := none
                     themes_dir := "colors"
                     supported_systems := some [SchemeSystem.base16]
                     theme_file_extension := none }]
    hooks := none }


/-- The config returned by a successful validation: the normalized items and
the effective shell stored back (src/config.rs lines 161-163). -/
def validatedConfig (cfg : Config) (items2 : List ConfigItem) : Config :=
  { cfg with items := some items2, shell := some (cfg.shell.getD DEFAULT_CONFIG_SHELL) }


/-- Filesystem state of a nonexistent config path: the path does not exist
and reading it fails. -/
def fsMissing : FS :=
  { path := "config.toml", pathExists := false, isFile := false, readContent := none }

/-- Filesystem state of an existing empty config file. -/
def fsEmptyFile : FS :=
  { path := "config.toml", pathExists := true, isFile := true, readContent := some "" }

/-! ## String and list lemmas -/

theorem stringEq_of_data {a b : String} (h : a.data = b.data) : a = b := by
  cases a; cases b; cases h; rfl

theorem string_data_append (a b : String) : (a ++ b).data = a.data ++ b.data := rfl

theorem string_mk_data (s : String) : String.mk s.data = s := rfl

theorem listPrefixOf_iff (p : List Char) : ∀ l, listPrefixOf p l = true ↔ ∃ t, l = p ++ t := by
  induction p with
  | nil =>
    intro l
    simp [listPrefixOf]
  | cons x xs ih =>
    intro l
    cases l with
    | nil =>
      simp [listPrefixOf]
    | cons c cs =>
      simp only [listPrefixOf, Bool.and_eq_true, decide_eq_true_eq, ih, List.cons_append,
        List.cons.injEq]
      constructor
      · rintro ⟨rfl, t, rfl⟩
        exact ⟨t, rfl, rfl⟩
      · rintro ⟨t, rfl, rfl⟩
        exact ⟨rfl, t, rfl⟩

theorem listPrefixOf_refl_append (p t : List Char) : listPrefixOf p (p ++ t) = true :=
  (listPrefixOf_iff p (p ++ t)).mpr ⟨t, rfl⟩

theorem listInfixOf_of_pref {p l : List Char} (h : listPrefixOf p l = true) :
    listInfixOf p l = true := by
  cases l with
  | nil => simpa [listInfixOf] using h
  | cons c cs => simp [listInfixOf, h]

theorem listInfixOf_cons {p cs : List Char} (c : Char) (h : listInfixOf p cs = true) :
    listInfixOf p (c :: cs) = true := by
  simp [listInfixOf, h]

theorem listInfixOf_mid (a p b : List Char) : listInfixOf p (a ++ (p ++ b)) = true := by
  induction a with
  | nil => exact listInfixOf_of_pref (listPrefixOf_refl_append p b)
  | cons c cs ih => exact listInfixOf_cons c ih

theorem strContains_mid (a s b : String) : strContains (a ++ s ++ b) s = true := by
  have hd : (a ++ s ++ b).data = a.data ++ (s.data ++ b.data) := by
    simp [string_data_append]
  rw [strContains, hd]
  exact listInfixOf_mid _ _ _

theorem replacenOnceChars_pref (pat repl rest : List Char) (hne : pat ≠ []) :
    replacenOnceChars pat repl (pat ++ rest) = repl ++ rest := by
  cases pat with
  | nil => exact absurd rfl hne
  | cons pc pcs =>
    show replacenOnceChars (pc :: pcs) repl (pc :: (pcs ++ rest)) = repl ++ rest
    rw [replacenOnceChars]
    rw [if_pos (show listPrefixOf (pc :: pcs) (pc :: (pcs ++ rest)) = true from
      listPrefixOf_refl_append (pc :: pcs) rest)]
    simp [List.drop_left]

theorem replacenOnce_eq (t pat repl : String) (hne : pat.data ≠ [])
    (h : strStartsWith t pat = true) :
    replacenOnce t pat repl = repl ++ String.mk (t.data.drop pat.data.length) := by
  obtain ⟨rest, hrest⟩ := (listPrefixOf_iff pat.data t.data).mp h
  apply stringEq_of_data
  show replacenOnceChars pat.data repl.data t.data =
    (repl ++ String.mk (t.data.drop pat.data.length)).data
  rw [string_data_append, hrest, replacenOnceChars_pref _ _ _ hne]
  simp [List.drop_left]

/-! ## Characterization of the uniqueness check -/

theorem ensureUniqueGo_ok_iff (l : List ConfigItem) :
    ∀ seen, ensureUniqueGo seen l = .ok () ↔
      ((l.map ConfigItem.name).Nodup ∧ ∀ n ∈ l.map ConfigItem.name, n ∉ seen) := by
  induction l with
  | nil =>
    intro seen
    simp [ensureUniqueGo]
  | cons it rest ih =>
    intro seen
    by_cases hm : it.name ∈ seen
    · constructor
      · intro h
        rw [ensureUniqueGo, if_pos hm] at h
        exact Except.noConfusion h
      · rintro ⟨_, hall⟩
        exact absurd hm (hall it.name (by simp))
    · rw [ensureUniqueGo, if_neg hm, ih, List.map_cons]
      constructor
      · rintro ⟨hnd, hall⟩
        refine ⟨List.nodup_cons.mpr
          ⟨fun hmem => (hall it.name hmem) (List.mem_cons_self _ _), hnd⟩, ?_⟩
        intro n hn
        rcases List.mem_cons.mp hn with rfl | hn2
        · exact hm
        · exact fun hs => (hall n hn2) (List.mem_cons_of_mem _ hs)
      · rintro ⟨hnds, hall⟩
        obtain ⟨hni, hnd⟩ := List.nodup_cons.mp hnds
        refine ⟨hnd, ?_⟩
        intro n hn hmem
        rcases List.mem_cons.mp hmem with rfl | hs
        · exact hni hn
        · exact (hall n (List.mem_cons_of_mem _ hn)) hs

theorem ensureUniqueGo_error (l : List ConfigItem) :
    ∀ seen e, ensureUniqueGo seen l = .error e →
      ∃ x j, e = .duplicateItemName x
        ∧ j < (l.map ConfigItem.name).length
        ∧ x = (l.map ConfigItem.name).getD j ""
        ∧ (x ∈ seen ∨ x ∈ (l.map ConfigItem.name).take j)
        ∧ ((l.map ConfigItem.name).take j).Nodup
        ∧ ∀ n ∈ (l.map ConfigItem.name).take j, n ∉ seen := by
  induction l with
  | nil =>
    intro seen e h
    simp [ensureUniqueGo] at h
  | cons it rest ih =>
    intro seen e h
    by_cases hm : it.name ∈ seen
    · rw [ensureUniqueGo, if_pos hm] at h
      have he : e = .duplicateItemName it.name := by
        cases h; rfl
      exact ⟨it.name, 0, he, by simp, by simp, Or.inl hm, by simp, by simp⟩
    · rw [ensureUniqueGo, if_neg hm] at h
      obtain ⟨x, j, he, hj, hx, hmem, hnd, hseen⟩ := ih (it.name :: seen) e h
      refine ⟨x, j + 1, he, by simpa using hj, by simpa using hx, ?_, ?_, ?_⟩
      · rcases hmem with hs | ht
        · rcases List.mem_cons.mp hs with rfl | hs
          · exact Or.inr (by simp [List.take_succ_cons])
          · exact Or.inl hs
        · exact Or.inr (by simp [List.take_succ_cons, ht])
      · rw [List.map_cons, List.take_succ_cons, List.nodup_cons]
        exact ⟨fun hc => (hseen _ hc) (by simp), hnd⟩
      · rw [List.map_cons, List.take_succ_cons]
        intro n hn
        rcases List.mem_cons.mp hn with rfl | hn
        · exact hm
        · exact fun hc => (hseen n hn) (List.mem_cons_of_mem _ hc)

theorem ensureItems_ok_iff (items : List ConfigItem) :
    ensureItemNameIsUnique items = .ok () ↔ (items.map ConfigItem.name).Nodup := by
  rw [ensureItemNameIsUnique, ensureUniqueGo_ok_iff]
  simp

/-! ## Lemmas about the per-item loop -/

theorem mapItems_ok_pointwise (env : Env) :
    ∀ (l l' : List ConfigItem), mapItems env l = .ok l' →
      l'.length = l.length ∧
      ∀ i (hi : i < l.length) (hi' : i < l'.length),
        normalizeItem env (l.get ⟨i, hi⟩) = .ok (l'.get ⟨i, hi'⟩) := by
  intro l
  induction l with
  | nil =>
    intro l' h
    rw [mapItems] at h
    cases h
    exact ⟨rfl, fun i hi _ => absurd hi (Nat.not_lt_zero i)⟩
  | cons a as ih =>
    intro l' h
    rw [mapItems] at h
    split at h
    · exact Except.noConfusion h
    · rename_i b hb
      split at h
      · exact Except.noConfusion h
      · rename_i bs hbs
        cases h
        obtain ⟨hlen, hpt⟩ := ih bs hbs
        refine ⟨by simpa using hlen, ?_⟩
        intro i hi hi'
        cases i with
        | zero => simpa using hb
        | succ k =>
          have hk : k < as.length := by simpa using hi
          have hk' : k < bs.length := by simpa using hi'
          simpa using hpt k hk hk'

theorem mapItems_mem_ok (env : Env) :
    ∀ {l l' : List ConfigItem}, mapItems env l = .ok l' →
      ∀ a ∈ l, ∃ b, normalizeItem env a = .ok b := by
  intro l
  induction l with
  | nil =>
    intro l' _ a ha
    exact absurd ha (List.not_mem_nil a)
  | cons x xs ih =>
    intro l' h a ha
    rw [mapItems] at h
    split at h
    · exact Except.noConfusion h
    · rename_i b hb
      split at h
      · exact Except.noConfusion h
      · rename_i bs hbs
        rcases List.mem_cons.mp ha with rfl | ha2
        · exact ⟨b, hb⟩
        · exact ih hbs a ha2

theorem mapItems_out_mem (env : Env) :
    ∀ {l l' : List ConfigItem}, mapItems env l = .ok l' →
      ∀ b ∈ l', ∃ a ∈ l, normalizeItem env a = .ok b := by
  intro l
  induction l with
  | nil =>
    intro l' h b hb
    rw [mapItems] at h
    cases h
    exact absurd hb (List.not_mem_nil b)
  | cons x xs ih =>
    intro l' h b hb
    rw [mapItems] at h
    split at h
    · exact Except.noConfusion h
    · rename_i c hc
      split at h
      · exact Except.noConfusion h
      · rename_i cs hcs
        cases h
        rcases List.mem_cons.mp hb with rfl | hb2
        · exact ⟨x, List.mem_cons_self _ _, hc⟩
        · obtain ⟨a, ha, hn⟩ := ih hcs b hb2
          exact ⟨a, List.mem_cons_of_mem _ ha, hn⟩

theorem mapItems_append_error (env : Env) {it : ConfigItem} {e : ConfigError}
    (hit : normalizeItem env it = .error e) :
    ∀ (pre : List ConfigItem), (∀ a ∈ pre, ∃ b, normalizeItem env a = .ok b) →
      ∀ post, mapItems env (pre ++ it :: post) = .error e := by
  intro pre
  induction pre with
  | nil =>
    intro _ post
    simp [mapItems, hit]
  | cons a as ih =>
    intro hpre post
    obtain ⟨b, hb⟩ := hpre a (List.mem_cons_self _ _)
    have ihs := ih (fun x hx => hpre x (List.mem_cons_of_mem _ hx)) post
    simp [mapItems, hb, ihs]

theorem mapItems_congr_ok (env : Env) :
    ∀ {l : List ConfigItem}, (∀ a ∈ l, normalizeItem env a = .ok a) →
      mapItems env l = .ok l := by
  intro l
  induction l with
  | nil => intro _; rfl
  | cons a as ih =>
    intro h
    have ha := h a (List.mem_cons_self _ _)
    have has := ih (fun x hx => h x (List.mem_cons_of_mem _ hx))
    simp [mapItems, ha, has]

/-! ## Lemmas about the loop body -/

theorem applyDefaultSystems_path (it : ConfigItem) :
    (applyDefaultSystems it).path = it.path := by
  rw [applyDefaultSystems]
  split <;> rfl

theorem applyDefaultSystems_of_some {it : ConfigItem} {l : List SchemeSystem}
    (h : it.supported_systems = some l) : applyDefaultSystems it = it := by
  rw [applyDefaultSystems, h]
  rfl

theorem applyDefaultSystems_of_none {it : ConfigItem}
    (h : it.supported_systems = none) :
    applyDefaultSystems it = { it with supported_systems := some [SchemeSystem.default] } := by
  rw [applyDefaultSystems, h]
  rfl

theorem applyDefaultSystems_systems_ne (it : ConfigItem) :
    (applyDefaultSystems it).supported_systems ≠ none := by
  cases h : it.supported_systems with
  | none => rw [applyDefaultSystems_of_none h]; simp
  | some l => rw [applyDefaultSystems_of_some h, h]; simp

theorem rewriteTilde_noTilde {env : Env} {it : ConfigItem}
    (hns : strStartsWith (strTrim it.path) "~/" = false) :
    rewriteTilde env it = .ok it := by
  rw [rewriteTilde]
  simp [hns]

theorem rewriteTilde_tilde_some {env : Env} {it : ConfigItem} {h : String}
    (hts : strStartsWith (strTrim it.path) "~/" = true)
    (hh : env.homeDir = some h) :
    rewriteTilde env it =
      .ok { it with path := replacenOnce (strTrim it.path) "~/" (h ++ "/") } := by
  rw [rewriteTilde]
  simp [hts, hh]

theorem rewriteTilde_tilde_none {env : Env} {it : ConfigItem}
    (hts : strStartsWith (strTrim it.path) "~/" = true)
    (hh : env.homeDir = none) :
    rewriteTilde env it = .error (.homeDirUnresolvable it.path) := by
  rw [rewriteTilde]
  simp [hts, hh]

theorem checkPath_pass {env : Env} {it : ConfigItem}
    (h : (env.urlOk it.path || env.isDir it.path) = true) :
    checkPath env it = .ok it := by
  rw [checkPath]
  rcases Bool.or_eq_true_iff.mp h with hu | hd
  · simp [hu]
  · simp [hd]

theorem checkPath_fail {env : Env} {it : ConfigItem}
    (h : (env.urlOk it.path || env.isDir it.path) = false) :
    checkPath env it = .error (.invalidItemPath it.path) := by
  obtain ⟨hu, hd⟩ := Bool.or_eq_false_iff.mp h
  rw [checkPath]
  simp [hu, hd]

theorem normalizeItem_noTilde_pass {env : Env} {it : ConfigItem}
    (hns : strStartsWith (strTrim it.path) "~/" = false)
    (h : (env.urlOk it.path || env.isDir it.path) = true) :
    normalizeItem env it = .ok (applyDefaultSystems it) := by
  have hns2 : strStartsWith (strTrim (applyDefaultSystems it).path) "~/" = false := by
    rw [applyDefaultSystems_path]; exact hns
  have h2 : (env.urlOk (applyDefaultSystems it).path
      || env.isDir (applyDefaultSystems it).path) = true := by
    rw [applyDefaultSystems_path]; exact h
  rw [normalizeItem, rewriteTilde_noTilde hns2]
  exact checkPath_pass h2

theorem normalizeItem_noTilde_fail {env : Env} {it : ConfigItem}
    (hns : strStartsWith (strTrim it.path) "~/" = false)
    (h : (env.urlOk it.path || env.isDir it.path) = false) :
    normalizeItem env it = .error (.invalidItemPath it.path) := by
  have hns2 : strStartsWith (strTrim (applyDefaultSystems it).path) "~/" = false := by
    rw [applyDefaultSystems_path]; exact hns
  have h2 : (env.urlOk (applyDefaultSystems it).path
      || env.isDir (applyDefaultSystems it).path) = false := by
    rw [applyDefaultSystems_path]; exact h
  rw [normalizeItem, rewriteTilde_noTilde hns2]
  show checkPath env (applyDefaultSystems it) = _
  rw [checkPath_fail h2, applyDefaultSystems_path]

theorem normalizeItem_tilde_none {env : Env} {it : ConfigItem}
    (hts : strStartsWith (strTrim it.path) "~/" = true)
    (hh : env.homeDir = none) :
    normalizeItem env it = .error (.homeDirUnresolvable it.path) := by
  have hts2 : strStartsWith (strTrim (applyDefaultSystems it).path) "~/" = true := by
    rw [applyDefaultSystems_path]; exact hts
  rw [normalizeItem, rewriteTilde_tilde_none hts2 hh, applyDefaultSystems_path]

theorem normalizeItem_tilde_some {env : Env} {it : ConfigItem} {h : String}
    (hts : strStartsWith (strTrim it.path) "~/" = true)
    (hh : env.homeDir = some h) :
    normalizeItem env it =
      checkPath env { applyDefaultSystems it with
        path := replacenOnce (strTrim it.path) "~/" (h ++ "/") } := by
  have hts2 : strStartsWith (strTrim (applyDefaultSystems it).path) "~/" = true := by
    rw [applyDefaultSystems_path]; exact hts
  rw [normalizeItem, rewriteTilde_tilde_some hts2 hh, applyDefaultSystems_path]

theorem normalizeItem_ok_systems {env : Env} {a b : ConfigItem}
    (h : normalizeItem env a = .ok b) :
    b.supported_systems ≠ none
    ∧ (a.supported_systems = none → b.supported_systems = some [SchemeSystem.default])
    ∧ (∀ l, a.supported_systems = some l → b.supported_systems = some l) := by
  rw [normalizeItem] at h
  split at h
  · exact Except.noConfusion h
  · rename_i it2 hrw
    have hsys : it2.supported_systems = (applyDefaultSystems a).supported_systems := by
      rw [rewriteTilde] at hrw
      split at hrw
      · split at hrw
        · cases hrw; rfl
        · exact Except.noConfusion hrw
      · cases hrw; rfl
    have hb : b.supported_systems = it2.supported_systems := by
      rw [checkPath] at h
      split at h
      · exact Except.noConfusion h
      · cases h; rfl
    refine ⟨?_, ?_, ?_⟩
    · rw [hb, hsys]; exact applyDefaultSystems_systems_ne a
    · intro ha
      rw [hb, hsys, applyDefaultSystems_of_none ha]
    · intro l ha
      rw [hb, hsys, applyDefaultSystems_of_some ha, ha]

/-! ## Lemmas about validate -/

theorem effItems_none {cfg : Config} (hi : cfg.items = none) :
    effItems cfg = .ok [base16ShellConfigItem] := by
  rw [effItems, hi]

theorem effItems_some_ok {cfg : Config} {items : List ConfigItem}
    (hi : cfg.items = some items) (hu : ensureItemNameIsUnique items = .ok ()) :
    effItems cfg = .ok items := by
  simp only [effItems, hi, hu]

theorem effItems_some_err {cfg : Config} {items : List ConfigItem} {e : ConfigError}
    (hi : cfg.items = some items) (hu : ensureItemNameIsUnique items = .error e) :
    effItems cfg = .error e := by
  simp only [effItems, hi, hu]

theorem validate_ok_of {env : Env} {cfg : Config} {items0 items' : List ConfigItem}
    (h1 : effItems cfg = .ok items0) (h2 : mapItems env items0 = .ok items')
    (h3 : strContains (cfg.shell.getD DEFAULT_CONFIG_SHELL) SHELL_PLACEHOLDER = true) :
    Config.validate env cfg = .ok (validatedConfig cfg items') := by
  simp only [Config.validate, validatedConfig, h1, h2, h3, if_true]

theorem validate_err_of_effItems {env : Env} {cfg : Config} {e : ConfigError}
    (h : effItems cfg = .error e) : Config.validate env cfg = .error e := by
  simp only [Config.validate, h]

theorem validate_err_of_mapItems {env : Env} {cfg : Config}
    {items0 : List ConfigItem} {e : ConfigError}
    (h1 : effItems cfg = .ok items0) (h2 : mapItems env items0 = .error e) :
    Config.validate env cfg = .error e := by
  simp only [Config.validate, h1, h2]

theorem validate_err_shell {env : Env} {cfg : Config} {items0 items' : List ConfigItem}
    (h1 : effItems cfg = .ok items0) (h2 : mapItems env items0 = .ok items')
    (h3 : strContains (cfg.shell.getD DEFAULT_CONFIG_SHELL) SHELL_PLACEHOLDER = false) :
    Config.validate env cfg = .error .missingShellPlaceholder := by
  simp only [Config.validate, h1, h2, h3]
  rfl

theorem validate_ok_inv {env : Env} {cfg : Config} {c : Config}
    (h : Config.validate env cfg = .ok c) :
    ∃ items0 items', effItems cfg = .ok items0 ∧ mapItems env items0 = .ok items'
      ∧ strContains (cfg.shell.getD DEFAULT_CONFIG_SHELL) SHELL_PLACEHOLDER = true
      ∧ c = validatedConfig cfg items' := by
  rw [Config.validate] at h
  split at h
  · exact Except.noConfusion h
  · rename_i items0 h1
    split at h
    · exact Except.noConfusion h
    · rename_i items' h2
      split at h
      · rename_i h3
        cases h
        exact ⟨items0, items', h1, h2, h3, rfl⟩
      · exact Except.noConfusion h

theorem validate_not_ok_of_bad_item {env : Env} {cfg : Config}
    {items : List ConfigItem} {it : ConfigItem} {e : ConfigError}
    (hi : cfg.items = some items) (hmem : it ∈ items)
    (hbad : normalizeItem env it = .error e) :
    ∀ c, Config.validate env cfg ≠ .ok c := by
  intro c hok
  obtain ⟨items0, items', h1, h2, _, _⟩ := validate_ok_inv hok
  simp only [effItems, hi] at h1
  have h1' : items0 = items := by
    split at h1
    · exact Except.noConfusion h1
    · cases h1; rfl
  subst h1'
  obtain ⟨b, hb⟩ := mapItems_mem_ok env h2 it hmem
  rw [hbad] at hb
  exact Except.noConfusion hb

theorem validate_fixpoint {env : Env} {c : Config}
    (h : revalidatableB env c = true) : Config.validate env c = .ok c := by
  rw [revalidatableB] at h
  obtain ⟨hsh, hit⟩ := Bool.and_eq_true_iff.mp h
  cases hshell : c.shell with
  | none => rw [hshell] at hsh; exact Bool.noConfusion hsh
  | some s =>
    rw [hshell] at hsh
    have hsh2 : strContains s SHELL_PLACEHOLDER = true := hsh
    cases hitems : c.items with
    | none => rw [hitems] at hit; exact Bool.noConfusion hit
    | some items =>
      rw [hitems] at hit
      have hit2 : (decide (ensureItemNameIsUnique items = Except.ok ()) &&
        items.all fun it =>
          !strStartsWith (strTrim it.path) "~/" && (env.urlOk it.path || env.isDir it.path)
            && it.supported_systems.isSome) = true := hit
      obtain ⟨hu, hall⟩ := Bool.and_eq_true_iff.mp hit2
      have hu2 : ensureItemNameIsUnique items = .ok () := of_decide_eq_true hu
      have hmi : mapItems env items = .ok items := by
        apply mapItems_congr_ok
        intro a ha
        have h3 := List.all_eq_true.mp hall a ha
        obtain ⟨h4, h5⟩ := Bool.and_eq_true_iff.mp h3
        obtain ⟨h6, h7⟩ := Bool.and_eq_true_iff.mp h4
        have hns : strStartsWith (strTrim a.path) "~/" = false := by
          simpa using h6
        obtain ⟨l, hl⟩ := Option.isSome_iff_exists.mp h5
        have hna : normalizeItem env a = .ok (applyDefaultSystems a) :=
          normalizeItem_noTilde_pass hns h7
        rw [hna, applyDefaultSystems_of_some hl]
      have hget : c.shell.getD DEFAULT_CONFIG_SHELL = s := by rw [hshell]; rfl
      have hv := validate_ok_of
        (effItems_some_ok hitems hu2) hmi (by rw [hget]; exact hsh2)
      rw [hv]
      have hc2 : validatedConfig c items = c := by
        rw [validatedConfig]
        cases c
        simp only at hitems hshell
        subst hitems
        subst hshell
        rfl
      rw [hc2]

/-! ## Round-trip lemmas -/

theorem noChar_append (c : Char) (a b : List Char) :
    noChar c (a ++ b) = (noChar c a && noChar c b) := by
  induction a with
  | nil => simp [noChar]
  | cons x xs ih => simp [noChar, ih, Bool.and_assoc]

theorem linesText_data (ls : List String) : (linesText ls).data = linesData ls := by
  induction ls with
  | nil => rfl
  | cons l ls ih =>
    show (l ++ "\n" ++ linesText ls).data = l.data ++ '\n' :: linesData ls
    rw [string_data_append, string_data_append, ih]
    simp

theorem splitOnChar_ne_nil (sep : Char) (cs : List Char) : splitOnChar sep cs ≠ [] := by
  cases cs with
  | nil => simp [splitOnChar]
  | cons c cs =>
    rw [splitOnChar]
    split <;> simp

theorem splitOnChar_sepFree (sep : Char) {xs : List Char} (h : noChar sep xs = true)
    (ys : List Char) : splitOnChar sep (xs ++ sep :: ys) = xs :: splitOnChar sep ys := by
  induction xs with
  | nil =>
    show splitOnChar sep (sep :: ys) = [] :: splitOnChar sep ys
    rw [splitOnChar, if_pos rfl]
  | cons x xs ih =>
    rw [noChar, Bool.and_eq_true_iff] at h
    have hx : ¬(x = sep) := by simpa using h.1
    show splitOnChar sep (x :: (xs ++ sep :: ys)) = (x :: xs) :: splitOnChar sep ys
    rw [splitOnChar]
    simp only [if_neg hx, ih h.2]
    rfl

theorem splitOnChar_linesData (ls : List String)
    (h : ∀ l ∈ ls, noChar '\n' l.data = true) :
    splitOnChar '\n' (linesData ls) = ls.map String.data ++ [[]] := by
  induction ls with
  | nil => rfl
  | cons l ls ih =>
    show splitOnChar '\n' (l.data ++ '\n' :: linesData ls) = _
    rw [splitOnChar_sepFree '\n' (h l (List.mem_cons_self _ _)) _,
      ih (fun x hx => h x (List.mem_cons_of_mem _ hx))]
    rfl

theorem dropPref_self (key : List Char) : ∀ rest, dropPref key (key ++ rest) = some rest := by
  induction key with
  | nil => intro rest; rfl
  | cons k ks ih =>
    intro rest
    show dropPref (k :: ks) (k :: (ks ++ rest)) = some rest
    rw [dropPref, if_pos rfl]
    exact ih rest

theorem stripDelimited_wrap (key : List Char) (last : Char) (v : List Char) :
    stripDelimited key last (key ++ (v ++ [last])) = some v := by
  simp only [stripDelimited, dropPref_self, List.getLast?_concat, List.dropLast_concat]
  rfl

theorem renderSystems_step16 (t : SchemeSystem) (ts : List SchemeSystem) :
    (renderSystems (.base16 :: t :: ts)).data =
      '"' :: 'b' :: 'a' :: 's' :: 'e' :: '1' :: '6' :: '"' :: ',' :: ' '
        :: (renderSystems (t :: ts)).data := rfl

theorem renderSystems_step24 (t : SchemeSystem) (ts : List SchemeSystem) :
    (renderSystems (.base24 :: t :: ts)).data =
      '"' :: 'b' :: 'a' :: 's' :: 'e' :: '2' :: '4' :: '"' :: ',' :: ' '
        :: (renderSystems (t :: ts)).data := rfl

theorem parseSystems_step16 (rest : List Char) :
    parseSystems ('"' :: 'b' :: 'a' :: 's' :: 'e' :: '1' :: '6' :: '"' :: ',' :: ' ' :: rest)
      = (parseSystems rest).map (.base16 :: ·) := rfl

theorem parseSystems_step24 (rest : List Char) :
    parseSystems ('"' :: 'b' :: 'a' :: 's' :: 'e' :: '2' :: '4' :: '"' :: ',' :: ' ' :: rest)
      = (parseSystems rest).map (.base24 :: ·) := rfl

theorem parseSystems_render : ∀ l, parseSystems (renderSystems l).data = some l
  | [] => rfl
  | [s] => by cases s <;> rfl
  | s :: t :: ts => by
    have ih := parseSystems_render (t :: ts)
    cases s with
    | base16 =>
      rw [renderSystems_step16, parseSystems_step16, ih]
      rfl
    | base24 =>
      rw [renderSystems_step24, parseSystems_step24, ih]
      rfl

theorem renderSystems_noNl : ∀ l, noChar '\n' (renderSystems l).data = true
  | [] => rfl
  | [s] => by cases s <;> rfl
  | s :: t :: ts => by
    have ih := renderSystems_noNl (t :: ts)
    cases s with
    | base16 =>
      have step : noChar '\n' (renderSystems (.base16 :: t :: ts)).data
          = noChar '\n' (renderSystems (t :: ts)).data := rfl
      rw [step, ih]
    | base24 =>
      have step : noChar '\n' (renderSystems (.base24 :: t :: ts)).data
          = noChar '\n' (renderSystems (t :: ts)).data := rfl
      rw [step, ih]

theorem stripDelimited_hook_sys (last : Char) (X : List Char) :
    stripDelimited keyHook last (keySystems ++ X) = none := rfl

theorem itemsLinesData_eq (items : List ConfigItem) :
    ((items.map itemLines).flatten).map String.data = itemsLinesData items := by
  induction items with
  | nil => rfl
  | cons it rest ih =>
    rw [itemsLinesData, List.map_cons, List.flatten_cons, List.map_append, ih]

theorem parseItemBlocks_render :
    ∀ items : List ConfigItem, (∀ it ∈ items, renderableItemB it = true) →
      parseItemBlocks (itemsLinesData items ++ [[]]) = some (items.map eraseItemUnrendered)
  | [], _ => rfl
  | it :: rest, h => by
    have hit := h it (List.mem_cons_self _ _)
    have ih := parseItemBlocks_render rest (fun a ha => h a (List.mem_cons_of_mem _ ha))
    obtain ⟨n, p, hk, td, ss, ext⟩ := it
    rw [renderableItemB] at hit
    obtain ⟨h1234, h5⟩ := Bool.and_eq_true_iff.mp hit
    obtain ⟨h123, h4⟩ := Bool.and_eq_true_iff.mp h1234
    cases ss with
    | none => exact absurd h5 (by simp)
    | some l =>
      cases hk with
      | none =>
        have hshape : itemsLinesData (⟨n, p, none, td, some l, ext⟩ :: rest) ++ [[]] =
            [] :: headerItems
              :: (keyName ++ (n.data ++ ['"']))
              :: (keyPath ++ (p.data ++ ['"']))
              :: (keySystems ++ ((renderSystems l).data ++ [']']))
              :: (keyThemes ++ (td.data ++ ['"']))
              :: (itemsLinesData rest ++ [[]]) := rfl
        rw [hshape, parseItemBlocks]
        rw [if_pos (rfl : headerItems = headerItems)]
        simp only [stripDelimited_wrap, stripDelimited_hook_sys, parseSystems_render, ih,
          Option.map_some', List.map_cons]
        rfl
      | some hstr =>
        have h4b : (goodStr hstr && !(hstr = "")) = true := h4
        have hne : ¬(hstr = "") := by
          have := (Bool.and_eq_true_iff.mp h4b).2
          simpa using this
        have hshape : itemsLinesData (⟨n, p, some hstr, td, some l, ext⟩ :: rest) ++ [[]] =
            [] :: headerItems
              :: (keyName ++ (n.data ++ ['"']))
              :: (keyPath ++ (p.data ++ ['"']))
              :: (keyHook ++ (hstr.data ++ ['"']))
              :: (keySystems ++ ((renderSystems l).data ++ [']']))
              :: (keyThemes ++ (td.data ++ ['"']))
              :: (itemsLinesData rest ++ [[]]) := by
          simp only [itemsLinesData, itemLines, Option.getD_some]
          rw [if_neg hne]
          rfl
        rw [hshape, parseItemBlocks]
        rw [if_pos (rfl : headerItems = headerItems)]
        simp only [stripDelimited_wrap, stripDelimited_hook_sys, parseSystems_render, ih,
          Option.map_some', List.map_cons]
        have herase : eraseItemUnrendered ⟨n, p, some hstr, td, some l, ext⟩ =
            ⟨n, p, some hstr, td, some l, none⟩ := by
          rw [eraseItemUnrendered]
          simp only [Option.getD_some]
          rw [if_neg hne]
        rw [herase]

theorem noNl_line (pre v suf : String) (h1 : noChar '\n' pre.data = true)
    (h2 : noChar '\n' v.data = true) (h3 : noChar '\n' suf.data = true) :
    noChar '\n' (pre ++ v ++ suf).data = true := by
  rw [string_data_append, string_data_append, noChar_append, noChar_append, h1, h2, h3]
  rfl

theorem goodStr_noNl {s : String} (h : goodStr s = true) : noChar '\n' s.data = true :=
  (Bool.and_eq_true_iff.mp h).2

theorem itemLines_noNl {it : ConfigItem} (hg : renderableItemB it = true) :
    ∀ l ∈ itemLines it, noChar '\n' l.data = true := by
  obtain ⟨n, p, hk, td, ss, ext⟩ := it
  rw [renderableItemB] at hg
  obtain ⟨h1234, _⟩ := Bool.and_eq_true_iff.mp hg
  obtain ⟨h123, h4⟩ := Bool.and_eq_true_iff.mp h1234
  obtain ⟨h12, h3⟩ := Bool.and_eq_true_iff.mp h123
  obtain ⟨h1, h2⟩ := Bool.and_eq_true_iff.mp h12
  intro l hl
  by_cases hge : (hk.getD "" : String) = ""
  · simp only [itemLines, hge, if_pos, List.append_nil, List.nil_append,
      List.cons_append, List.mem_cons, List.not_mem_nil, or_false] at hl
    rcases hl with rfl | rfl | rfl | rfl | rfl | rfl
    · rfl
    · rfl
    · exact noNl_line _ _ _ rfl (goodStr_noNl h1) rfl
    · exact noNl_line _ _ _ rfl (goodStr_noNl h2) rfl
    · exact noNl_line _ _ _ rfl (renderSystems_noNl _) rfl
    · exact noNl_line _ _ _ rfl (goodStr_noNl h3) rfl
  · have hksome : ∃ hs, hk = some hs := by
      cases hk with
      | none => exact absurd rfl hge
      | some hs => exact ⟨hs, rfl⟩
    obtain ⟨hs, rfl⟩ := hksome
    have hgs : goodStr hs = true := by
      have h4b : (goodStr hs && !(hs = "")) = true := h4
      exact (Bool.and_eq_true_iff.mp h4b).1
    simp only [itemLines, if_neg hge, List.append_nil, List.nil_append,
      List.cons_append, List.mem_cons, List.not_mem_nil, or_false] at hl
    rcases hl with rfl | rfl | rfl | rfl | rfl | rfl | rfl
    · rfl
    · rfl
    · exact noNl_line _ _ _ rfl (goodStr_noNl h1) rfl
    · exact noNl_line _ _ _ rfl (goodStr_noNl h2) rfl
    · exact noNl_line _ _ _ rfl (goodStr_noNl hgs) rfl
    · exact noNl_line _ _ _ rfl (renderSystems_noNl _) rfl
    · exact noNl_line _ _ _ rfl (goodStr_noNl h3) rfl

theorem configLines_noNl {c : Config} (hr : renderableB c = true) :
    ∀ l ∈ configLines c, noChar '\n' l.data = true := by
  rw [renderableB] at hr
  obtain ⟨hAB, hC⟩ := Bool.and_eq_true_iff.mp hr
  obtain ⟨hA, hB⟩ := Bool.and_eq_true_iff.mp hAB
  intro l hl
  rw [configLines] at hl
  rcases List.mem_append.mp hl with h1 | hitem
  · rcases List.mem_append.mp h1 with hsl | hdl
    · cases hshell : c.shell with
      | none => rw [hshell] at hA; exact Bool.noConfusion hA
      | some s =>
        rw [hshell] at hA hsl
        have hgs : goodStr s = true := hA
        rcases List.mem_singleton.mp hsl with rfl
        exact noNl_line _ _ _ rfl (goodStr_noNl hgs) rfl
    · cases hds : c.default_scheme with
      | none => rw [hds] at hdl; simp at hdl
      | some d =>
        rw [hds] at hB hdl
        have hgd : goodStr d = true := hB
        simp only [Option.isSome_some, if_pos, List.mem_singleton] at hdl
        rcases hdl with rfl
        exact noNl_line _ _ _ rfl (goodStr_noNl hgd) rfl
  · cases hit : c.items with
    | none => rw [hit] at hC; exact Bool.noConfusion hC
    | some items =>
      rw [hit] at hC hitem
      have hitem2 : ∃ a ∈ items, l ∈ itemLines a := by simpa using hitem
      obtain ⟨itx, hitx, hlL⟩ := hitem2
      exact itemLines_noNl (List.all_eq_true.mp hC itx hitx) l hlL

theorem parseLs_cons_noscheme (sh : List Char) {l1 : List Char} (rest2 : List (List Char))
    (hsch : stripDelimited keyScheme '"' l1 = none) :
    parseLs ((keyShell ++ (sh ++ ['"'])) :: l1 :: rest2) =
      (match parseItemBlocks (l1 :: rest2) with
       | some items => some ⟨some ⟨sh⟩, none, if items.isEmpty then none else some items, none⟩
       | none => none) := by
  simp only [parseLs, stripDelimited_wrap, hsch]

theorem parseLs_cons_scheme (sh d : List Char) (rest2 : List (List Char)) :
    parseLs ((keyShell ++ (sh ++ ['"'])) :: (keyScheme ++ (d ++ ['"'])) :: rest2) =
      (match parseItemBlocks rest2 with
       | some items => some ⟨some ⟨sh⟩, some ⟨d⟩, if items.isEmpty then none else some items, none⟩
       | none => none) := by
  simp only [parseLs, stripDelimited_wrap]

theorem parseRendered_render {c : Config} (hr : renderableB c = true) :
    parseRendered (renderConfig c) = some (eraseUnrendered c) := by
  have hlines := configLines_noNl hr
  rw [parseRendered, renderConfig, linesText_data, splitOnChar_linesData _ hlines]
  rw [renderableB] at hr
  obtain ⟨hAB, hC⟩ := Bool.and_eq_true_iff.mp hr
  obtain ⟨hA, hB⟩ := Bool.and_eq_true_iff.mp hAB
  obtain ⟨csh, cds, cit, chk⟩ := c
  cases csh with
  | none => exact Bool.noConfusion hA
  | some s =>
    cases cit with
    | none => exact Bool.noConfusion hC
    | some items =>
      have hall : items.all renderableItemB = true := hC
      have hallmem : ∀ it2 ∈ items, renderableItemB it2 = true := List.all_eq_true.mp hall
      cases cds with
      | none =>
        cases items with
        | nil =>
          have hshape : (configLines ⟨some s, none, some [], chk⟩).map String.data ++ [[]] =
              (keyShell ++ (s.data ++ ['"'])) :: [([] : List Char)] := rfl
          rw [hshape, parseLs_cons_noscheme s.data []
            (show stripDelimited keyScheme '"' ([] : List Char) = none from rfl)]
          rfl
        | cons it rest' =>
          have hshape : (configLines ⟨some s, none, some (it :: rest'), chk⟩).map
              String.data ++ [[]] =
              (keyShell ++ (s.data ++ ['"'])) :: (itemsLinesData (it :: rest') ++ [[]]) := by
            rw [← itemsLinesData_eq]
            rfl
          have hcons : itemsLinesData (it :: rest') ++ [[]] =
              [] :: ((((itemLines it).map String.data).tail
                ++ itemsLinesData rest') ++ [[]]) := rfl
          rw [hshape, hcons, parseLs_cons_noscheme s.data _
              (show stripDelimited keyScheme '"' ([] : List Char) = none from rfl),
            ← hcons, parseItemBlocks_render (it :: rest') hallmem]
          rfl
      | some d =>
        have hshape : (configLines ⟨some s, some d, some items, chk⟩).map
            String.data ++ [[]] =
            (keyShell ++ (s.data ++ ['"'])) :: (keyScheme ++ (d.data ++ ['"']))
              :: (itemsLinesData items ++ [[]]) := by
          rw [← itemsLinesData_eq]
          rfl
        rw [hshape, parseLs_cons_scheme s.data d.data _,
          parseItemBlocks_render items hallmem]
        cases items with
        | nil => rfl
        | cons it rest' => rfl

/-! ## Further shared lemmas -/

theorem validate_no_items {env : Env} {cfg : Config} (hitems : cfg.items = none)
    (hshell : strContains (cfg.shell.getD DEFAULT_CONFIG_SHELL) SHELL_PLACEHOLDER = true)
    (hurl : env.urlOk BASE16_SHELL_REPO_URL = true) :
    Config.validate env cfg = .ok (validatedConfig cfg [base16ShellConfigItem]) := by
  have hmi : mapItems env [base16ShellConfigItem] = .ok [base16ShellConfigItem] := by
    apply mapItems_congr_ok
    intro a ha
    rcases List.mem_singleton.mp ha with rfl
    have hns : strStartsWith (strTrim base16ShellConfigItem.path) "~/" = false := by decide
    have hok : (env.urlOk base16ShellConfigItem.path
        || env.isDir base16ShellConfigItem.path) = true := by
      rw [show base16ShellConfigItem.path = BASE16_SHELL_REPO_URL from rfl, hurl,
        Bool.true_or]
    rw [normalizeItem_noTilde_pass hns hok]
    rw [applyDefaultSystems_of_some
      (show base16ShellConfigItem.supported_systems = some [SchemeSystem.base16] from rfl)]
  exact validate_ok_of (effItems_none hitems) hmi hshell

theorem validate_ok_items_pointwise {env : Env} {cfg c : Config}
    {items items' : List ConfigItem}
    (hok : Config.validate env cfg = .ok c) (hi : cfg.items = some items)
    (hc : c.items = some items') :
    items'.length = items.length ∧
    ∀ i (hi1 : i < items.length) (hi2 : i < items'.length),
      normalizeItem env (items.get ⟨i, hi1⟩) = .ok (items'.get ⟨i, hi2⟩) := by
  obtain ⟨items0, itemsM, h1, h2, _, hceq⟩ := validate_ok_inv hok
  simp only [effItems, hi] at h1
  have h1' : items0 = items := by
    split at h1
    · exact Except.noConfusion h1
    · cases h1; rfl
  subst h1'
  have hcM : c.items = some itemsM := by rw [hceq]; rfl
  rw [hc] at hcM
  injection hcM with hMM
  subst hMM
  exact mapItems_ok_pointwise env _ _ h2

theorem normalizeItem_ok_noTilde_path {env : Env} {a b : ConfigItem}
    (hns : strStartsWith (strTrim a.path) "~/" = false)
    (h : normalizeItem env a = .ok b) : b = applyDefaultSystems a := by
  rw [normalizeItem_noTilde_pass hns ?hok] at h
  case hok =>
    by_contra hfail
    rw [Bool.not_eq_true] at hfail
    rw [normalizeItem_noTilde_fail hns hfail] at h
    exact Except.noConfusion h
  injection h with h2
  exact h2.symm

theorem normalizeItem_ok_tilde_path {env : Env} {a b : ConfigItem} {h : String}
    (hts : strStartsWith (strTrim a.path) "~/" = true)
    (hh : env.homeDir = some h)
    (hab : normalizeItem env a = .ok b) :
    b = { applyDefaultSystems a with
          path := replacenOnce (strTrim a.path) "~/" (h ++ "/") } := by
  rw [normalizeItem_tilde_some hts hh] at hab
  rw [checkPath] at hab
  split at hab
  · exact Except.noConfusion hab
  · injection hab with h2
    exact h2.symm

/-! ## Claim theorems -/

/-- Claim C1, counterexample: the draft `shell = "zsh"` (no `items` key)
parses successfully, yet load does not succeed — it fails with the
missing-shell-placeholder error even in an environment whose URL validator
accepts everything — so "for every config file that parses successfully and
contains no items key, load succeeds" is false as stated. -/
theorem claim_C1_counterexample :
    Config.validate envT cfgNoPh = .error .missingShellPlaceholder := by decide

/-- Claim C1, amended: for every draft config that parses successfully,
contains no `items` key, and whose effective shell contains the placeholder,
in an environment whose URL validator accepts the canonical tinted-shell
repository URL (as the real `Url::parse` does), load succeeds and the
returned items list is exactly the single built-in default item, whose name,
path, themes-dir, hook and supported-systems equal the fixed built-in
constants. -/
theorem claim_C1_default_item (env : Env) (cfg : Config)
    (hitems : cfg.items = none)
    (hshell : strContains (cfg.shell.getD DEFAULT_CONFIG_SHELL) SHELL_PLACEHOLDER = true)
    (hurl : env.urlOk BASE16_SHELL_REPO_URL = true) :
    Config.validate env cfg = .ok (validatedConfig cfg [base16ShellConfigItem])
    ∧ (validatedConfig cfg [base16ShellConfigItem]).items = some [base16ShellConfigItem]
    ∧ base16ShellConfigItem.name = BASE16_SHELL_REPO_NAME
    ∧ base16ShellConfigItem.path = BASE16_SHELL_REPO_URL
    ∧ base16ShellConfigItem.themes_dir = BASE16_SHELL_THEMES_DIR
    ∧ base16ShellConfigItem.hook = some BASE16_SHELL_HOOK
    ∧ base16ShellConfigItem.supported_systems = some [SchemeSystem.base16]
    ∧ BASE16_SHELL_REPO_NAME = "tinted-shell"
    ∧ BASE16_SHELL_REPO_URL = "https://github.com/tinted-theming/tinted-shell"
    ∧ BASE16_SHELL_THEMES_DIR = "scripts"
    ∧ BASE16_SHELL_HOOK = ". %f" :=
  ⟨validate_no_items hitems hshell hurl, rfl, rfl, rfl, rfl, rfl, rfl, rfl, rfl, rfl, rfl⟩

/-- Witness for the amended claim C1: the empty draft in a concrete
environment loads to exactly the default item. -/
theorem claim_C1_witness :
    Config.validate envT cfgEmptyDraft =
      .ok (validatedConfig cfgEmptyDraft [base16ShellConfigItem])
    ∧ (validatedConfig cfgEmptyDraft [base16ShellConfigItem]).items =
      some [base16ShellConfigItem] :=
  ⟨(claim_C1_default_item envT cfgEmptyDraft rfl (by decide) rfl).1,
   (claim_C1_default_item envT cfgEmptyDraft rfl (by decide) rfl).2.1⟩

/-- Claim C10: a present-but-empty `items` array is kept empty — load
succeeds (given an effective shell containing the placeholder) and the
returned items list is empty; the built-in default item is synthesized only
when the key is wholly absent. -/
theorem claim_C10_empty_items (env : Env) (cfg : Config)
    (hi : cfg.items = some ([] : List ConfigItem))
    (hs : strContains (cfg.shell.getD DEFAULT_CONFIG_SHELL) SHELL_PLACEHOLDER = true) :
    Config.validate env cfg = .ok (validatedConfig cfg [])
    ∧ (validatedConfig cfg []).items = some ([] : List ConfigItem) :=
  ⟨validate_ok_of (effItems_some_ok hi rfl) rfl hs, rfl⟩

/-- Witness for claim C10 at a concrete draft with an empty items array. -/
theorem claim_C10_witness :
    Config.validate envT cfgEmptyItemsNoShell =
      .ok (validatedConfig cfgEmptyItemsNoShell [])
    ∧ (validatedConfig cfgEmptyItemsNoShell []).items = some ([] : List ConfigItem) :=
  claim_C10_empty_items envT cfgEmptyItemsNoShell rfl (by decide)

/-- Claim C8: loading a nonexistent path gives the same result as loading an
existing empty file, and (since the real TOML parser maps the empty document
to the all-absent draft and the real URL validator accepts the canonical
repository URL — both supplied as hypotheses on the oracles) that result is a
successful all-defaults `Config`; nonexistence is never a hard failure. -/
theorem claim_C8_missing_file (env : Env) (fs fsE : FS)
    (h1 : fs.pathExists = false) (h2 : fs.readContent = none)
    (h3 : fsE.pathExists = true) (h4 : fsE.isFile = true)
    (h5 : fsE.readContent = some "")
    (hp : env.parse "" = some cfgEmptyDraft)
    (hurl : env.urlOk BASE16_SHELL_REPO_URL = true) :
    Config.read fs env = Config.read fsE env
    ∧ Config.read fs env = .ok (validatedConfig cfgEmptyDraft [base16ShellConfigItem]) := by
  have hA : Config.read fs env = Config.validate env cfgEmptyDraft := by
    rw [Config.read, h1, h2]
    simp only [Bool.false_and, Bool.false_eq_true, if_false, Option.getD_none, hp]
  have hB : Config.read fsE env = Config.validate env cfgEmptyDraft := by
    rw [Config.read, h3, h4, h5]
    simp only [Bool.true_and, Bool.not_true, Bool.false_eq_true, if_false,
      Option.getD_some, hp]
  refine ⟨hA.trans hB.symm, hA.trans ?_⟩
  exact validate_no_items rfl (by decide) hurl

/-- Witness for claim C8 at a concrete missing file, a concrete empty file
and a concrete environment. -/
theorem claim_C8_witness :
    Config.read fsMissing env8 = Config.read fsEmptyFile env8
    ∧ Config.read fsMissing env8 =
      .ok (validatedConfig cfgEmptyDraft [base16ShellConfigItem]) :=
  claim_C8_missing_file env8 fsMissing fsEmptyFile rfl rfl rfl rfl rfl (by decide) (by decide)

/-- Claim C2, counterexample: a draft whose effective shell is the default
template (which contains the placeholder) on which load nevertheless fails,
because an item path is invalid — so "for every config whose effective shell
contains the placeholder, load succeeds" is false as stated. -/
theorem claim_C2_counterexample :
    strContains DEFAULT_CONFIG_SHELL SHELL_PLACEHOLDER = true
    ∧ cfgGoodShellBadItem.shell = some DEFAULT_CONFIG_SHELL
    ∧ Config.validate envF cfgGoodShellBadItem = .error (.invalidItemPath "bad") := by
  decide

/-- Claim C2, amended: a successfully returned config stores the effective
shell verbatim and that shell contains the placeholder; a config whose
effective shell lacks the placeholder never loads successfully, and — when
item checking succeeds — fails with exactly the missing-shell-placeholder
error; when the effective shell contains the placeholder and item checking
succeeds, load succeeds with the shell stored verbatim. -/
theorem claim_C2_shell_placeholder (env : Env) (cfg : Config) :
    (∀ c, Config.validate env cfg = .ok c →
        c.shell = some (cfg.shell.getD DEFAULT_CONFIG_SHELL)
        ∧ strContains (cfg.shell.getD DEFAULT_CONFIG_SHELL) SHELL_PLACEHOLDER = true)
    ∧ (strContains (cfg.shell.getD DEFAULT_CONFIG_SHELL) SHELL_PLACEHOLDER = false →
        ∀ c, Config.validate env cfg ≠ .ok c)
    ∧ (∀ items0 items', effItems cfg = .ok items0 → mapItems env items0 = .ok items' →
        (strContains (cfg.shell.getD DEFAULT_CONFIG_SHELL) SHELL_PLACEHOLDER = false →
          Config.validate env cfg = .error .missingShellPlaceholder)
        ∧ (strContains (cfg.shell.getD DEFAULT_CONFIG_SHELL) SHELL_PLACEHOLDER = true →
          Config.validate env cfg = .ok (validatedConfig cfg items'))) := by
  refine ⟨?_, ?_, ?_⟩
  · intro c hok
    obtain ⟨i0, i1, _, _, h3, hc⟩ := validate_ok_inv hok
    subst hc
    exact ⟨rfl, h3⟩
  · intro hmiss c hok
    obtain ⟨_, _, _, _, h3, _⟩ := validate_ok_inv hok
    rw [hmiss] at h3
    exact Bool.noConfusion h3
  · intro items0 items' h1 h2
    exact ⟨fun hmiss => validate_err_shell h1 h2 hmiss,
           fun hcont => validate_ok_of h1 h2 hcont⟩

/-- Witness for the amended claim C2: a concrete config whose shell contains
the placeholder and whose items pass checking loads successfully, storing the
shell verbatim. -/
theorem claim_C2_witness :
    Config.validate envT cfgEmptyItems = .ok (validatedConfig cfgEmptyItems []) :=
  ((claim_C2_shell_placeholder envT cfgEmptyItems).2.2 [] []
    (by decide) (by decide)).2 (by decide)

/-- Claim C3: whenever the items list contains two items sharing a name,
load fails with the duplicate-item-name error; the failure is triggered by
the first duplicate in list order (the item at index `j`, whose name already
occurs among the first `j` names, no earlier index having that property
since the first `j` names are pairwise distinct), and the error message
contains that name. -/
theorem claim_C3_duplicate_names (env : Env) (cfg : Config) (items : List ConfigItem)
    (hi : cfg.items = some items)
    (hdup : ¬ (items.map ConfigItem.name).Nodup) :
    ∃ x j,
      Config.validate env cfg = .error (.duplicateItemName x)
      ∧ j < (items.map ConfigItem.name).length
      ∧ x = (items.map ConfigItem.name).getD j ""
      ∧ x ∈ (items.map ConfigItem.name).take j
      ∧ ((items.map ConfigItem.name).take j).Nodup
      ∧ strContains (ConfigError.message (.duplicateItemName x)) x = true := by
  have hne : ensureItemNameIsUnique items ≠ .ok () := fun h =>
    hdup ((ensureItems_ok_iff items).mp h)
  obtain ⟨e, he⟩ : ∃ e, ensureItemNameIsUnique items = .error e := by
    cases h : ensureItemNameIsUnique items with
    | error e => exact ⟨e, rfl⟩
    | ok u => cases u; exact absurd h hne
  obtain ⟨x, j, hex, hj, hx, hmem, hnd, _⟩ := ensureUniqueGo_error items [] e he
  subst hex
  refine ⟨x, j, validate_err_of_effItems (effItems_some_err hi he), hj, hx, ?_, hnd, ?_⟩
  · rcases hmem with h | h
    · exact absurd h (List.not_mem_nil x)
    · exact h
  · simp only [ConfigError.message]
    exact strContains_mid _ _ _

/-- Witness for claim C3 at a concrete config with two items named `a`. -/
theorem claim_C3_witness :
    Config.validate envT cfgDupNames = .error (.duplicateItemName "a")
    ∧ strContains (ConfigError.message (.duplicateItemName "a")) "a" = true := by
  obtain ⟨x, j, h1, _, _, _, _, h6⟩ :=
    claim_C3_duplicate_names envT cfgDupNames _ rfl (by decide)
  have h1' : Config.validate envT cfgDupNames = .error (.duplicateItemName "a") := by
    decide
  have hx : ConfigError.duplicateItemName x = .duplicateItemName "a" := by
    have := h1.symm.trans h1'
    injection this
  have hx2 : x = "a" := by injection hx
  subst hx2
  exact ⟨h1', h6⟩

/-- Claim C4, counterexample: with two items both of whose paths are neither
URL-parseable nor directories, load fails naming only the first bad path;
the error message does not contain the second item's bad path, so "for every
such item the error message contains that exact path" is false as stated. -/
theorem claim_C4_counterexample :
    Config.validate envF cfgTwoBad = .error (.invalidItemPath "bad1")
    ∧ strContains (ConfigError.message (.invalidItemPath "bad1")) "bad2" = false
    ∧ envF.urlOk "bad2" = false ∧ envF.isDir "bad2" = false := by decide

/-- Claim C4, amended: the per-item path check is the two-armed
classification "accept if the URL parse succeeds, or else if the path is an
existing directory; fail only if both fail", an item failing it makes load
fail, and when such an item is the first to fail item validation (unique
names, all earlier items normalize successfully) the load error is the
invalid-item-path error whose message contains that exact (rewritten) path
string. -/
theorem claim_C4_invalid_path (env : Env) (cfg : Config)
    (pre post : List ConfigItem) (it : ConfigItem)
    (hi : cfg.items = some (pre ++ it :: post)) :
    (∀ it2, rewriteTilde env (applyDefaultSystems it) = .ok it2 →
        ((env.urlOk it2.path || env.isDir it2.path) = true →
          normalizeItem env it = .ok it2)
        ∧ ((env.urlOk it2.path || env.isDir it2.path) = false →
          normalizeItem env it = .error (.invalidItemPath it2.path)))
    ∧ (∀ e, normalizeItem env it = .error e → ∀ c, Config.validate env cfg ≠ .ok c)
    ∧ (∀ pres p, ensureItemNameIsUnique (pre ++ it :: post) = .ok () →
        mapItems env pre = .ok pres →
        normalizeItem env it = .error (.invalidItemPath p) →
        Config.validate env cfg = .error (.invalidItemPath p)
        ∧ strContains (ConfigError.message (.invalidItemPath p)) p = true) := by
  refine ⟨?_, ?_, ?_⟩
  · intro it2 hrw
    constructor
    · intro hok
      rw [normalizeItem, hrw]
      exact checkPath_pass hok
    · intro hfail
      rw [normalizeItem, hrw]
      show checkPath env it2 = _
      exact checkPath_fail hfail
  · intro e he c
    exact validate_not_ok_of_bad_item hi
      (List.mem_append_right pre (List.mem_cons_self _ _)) he c
  · intro pres p hu hpre hbad
    have hmemok : ∀ a ∈ pre, ∃ b, normalizeItem env a = .ok b := mapItems_mem_ok env hpre
    have hmi := mapItems_append_error env hbad pre hmemok post
    refine ⟨validate_err_of_mapItems (effItems_some_ok hi hu) hmi, ?_⟩
    simp only [ConfigError.message]
    exact strContains_mid _ _ _

/-- Witness for the amended claim C4: an environment rejecting every path
and a config with one item with path `bad` fail with the invalid-item-path
error whose message contains `bad`. -/
theorem claim_C4_witness :
    Config.validate envF cfgGoodShellBadItem = .error (.invalidItemPath "bad")
    ∧ strContains (ConfigError.message (.invalidItemPath "bad")) "bad" = true :=
  (claim_C4_invalid_path envF cfgGoodShellBadItem [] [] (mkItem "a" "bad") rfl).2.2
    [] "bad" (by decide) rfl (by decide)

/-- Claim C5, counterexample: with an unresolvable home directory and a
tilde-prefixed item present, load fails with the invalid-item-path error of
an earlier item rather than the home-directory-unresolvable error, so "if a
tilde path is present and the home directory cannot be determined, load
fails with the home-directory-unresolvable error" is false as stated. -/
theorem claim_C5_counterexample :
    envF.homeDir = none
    ∧ strStartsWith (strTrim "~/x") "~/" = true
    ∧ Config.validate envF cfgBadThenTilde = .error (.invalidItemPath "bad") := by decide

/-- Claim C5, amended: in every successfully loaded config, each item whose
trimmed path starts with the tilde prefix (given a resolvable home
directory) is stored with that prefix replaced by the home directory plus a
slash; if the home directory is unresolvable and a tilde item is present,
load never succeeds, and when that item is the first to fail validation the
error is the home-directory-unresolvable error. -/
theorem claim_C5_tilde_expansion (env : Env) (cfg : Config) :
    (∀ h c items items', env.homeDir = some h → Config.validate env cfg = .ok c →
        cfg.items = some items → c.items = some items' →
        ∀ i (hi1 : i < items.length) (hi2 : i < items'.length),
          strStartsWith (strTrim (items.get ⟨i, hi1⟩).path) "~/" = true →
          (items'.get ⟨i, hi2⟩).path =
            (h ++ "/") ++ String.mk ((strTrim (items.get ⟨i, hi1⟩).path).data.drop 2))
    ∧ (∀ pre it post, env.homeDir = none → cfg.items = some (pre ++ it :: post) →
        strStartsWith (strTrim it.path) "~/" = true →
        (∀ c, Config.validate env cfg ≠ .ok c)
        ∧ (∀ pres, ensureItemNameIsUnique (pre ++ it :: post) = .ok () →
            mapItems env pre = .ok pres →
            Config.validate env cfg = .error (.homeDirUnresolvable it.path))) := by
  constructor
  · intro h c items items' hh hok hi hc i hi1 hi2 hts
    have hpt := (validate_ok_items_pointwise hok hi hc).2 i hi1 hi2
    have hb := normalizeItem_ok_tilde_path hts hh hpt
    rw [hb]
    show replacenOnce (strTrim (items.get ⟨i, hi1⟩).path) "~/" (h ++ "/") = _
    rw [replacenOnce_eq _ _ _ (by decide) hts]
    rfl
  · intro pre it post hh hi hts
    have hbad := normalizeItem_tilde_none hts hh
    constructor
    · intro c
      exact validate_not_ok_of_bad_item hi
        (List.mem_append_right pre (List.mem_cons_self _ _)) hbad c
    · intro pres hu hpre
      have hmemok : ∀ a ∈ pre, ∃ b, normalizeItem env a = .ok b := mapItems_mem_ok env hpre
      have hmi := mapItems_append_error env hbad pre hmemok post
      exact validate_err_of_mapItems (effItems_some_ok hi hu) hmi

/-- Witness for the amended claim C5: the item path `~/themes` with home
directory `/home/u` is stored as `/home/u/themes`. -/
theorem claim_C5_witness :
    ({ mkItem "a" "/home/u/themes" with
        supported_systems := some [SchemeSystem.base16] } : ConfigItem).path
      = ("/home/u" ++ "/") ++ String.mk ((strTrim "~/themes").data.drop 2) :=
  (claim_C5_tilde_expansion env5w cfgTildeOnly).1 "/home/u" cfgTildeOnlyOut _ _
    rfl (by decide) rfl rfl 0 (by decide) (by decide) (by decide)

/-- Claim C6, counterexample: an item path with surrounding spaces around an
existing directory is validated and stored untrimmed — the load fails naming
the untrimmed string even though its trimmed form is an existing directory —
so "for every item the path is trimmed before validation and stored trimmed"
is false as stated. -/
theorem claim_C6_counterexample :
    strTrim " /tmp " = "/tmp"
    ∧ env6.isDir "/tmp" = true
    ∧ env6.isDir " /tmp " = false
    ∧ Config.validate env6 cfgSpacePath = .error (.invalidItemPath " /tmp ") := by decide

/-- Claim C6, amended: the path is trimmed only to detect the tilde prefix —
an item whose trimmed path does not start with the tilde prefix is validated
against, and stored with, its original untrimmed path. -/
theorem claim_C6_untrimmed_path (env : Env) :
    (∀ it : ConfigItem, strStartsWith (strTrim it.path) "~/" = false →
      ((env.urlOk it.path || env.isDir it.path) = true →
          normalizeItem env it = .ok (applyDefaultSystems it)
          ∧ (applyDefaultSystems it).path = it.path)
      ∧ ((env.urlOk it.path || env.isDir it.path) = false →
          normalizeItem env it = .error (.invalidItemPath it.path)))
    ∧ (∀ cfg c items items', Config.validate env cfg = .ok c → cfg.items = some items →
        c.items = some items' →
        ∀ i (hi1 : i < items.length) (hi2 : i < items'.length),
          strStartsWith (strTrim (items.get ⟨i, hi1⟩).path) "~/" = false →
          (items'.get ⟨i, hi2⟩).path = (items.get ⟨i, hi1⟩).path) := by
  constructor
  · intro it hns
    constructor
    · intro hok
      exact ⟨normalizeItem_noTilde_pass hns hok, applyDefaultSystems_path it⟩
    · intro hfail
      exact normalizeItem_noTilde_fail hns hfail
  · intro cfg c items items' hok hi hc i hi1 hi2 hns
    have hpt := (validate_ok_items_pointwise hok hi hc).2 i hi1 hi2
    have hb := normalizeItem_ok_noTilde_path hns hpt
    rw [hb, applyDefaultSystems_path]

/-- Witness for the amended claim C6: the untrimmed path with spaces is
validated as is (and rejected as is in an environment accepting nothing). -/
theorem claim_C6_witness :
    normalizeItem env6 (mkItem "a" " /tmp ") = .error (.invalidItemPath " /tmp ") :=
  ((claim_C6_untrimmed_path env6).1 (mkItem "a" " /tmp ") (by decide)).2 (by decide)

/-- Claim C7, counterexample: an item whose `supported-systems` is an
explicitly empty list loads successfully with the empty list kept — so
"every item's supported_systems is a non-empty sequence after
normalization" is false as stated (only absence is defaulted). -/
theorem claim_C7_counterexample :
    Config.validate envT cfgEmptySystems = .ok cfgEmptySystemsOut
    ∧ cfgEmptySystemsOut.items =
        some [{ mkItem "a" "/tmp" with supported_systems := some ([] : List SchemeSystem) }]
    := by decide

/-- Claim C7, amended: in every successfully loaded config every item's
supported-systems field is set (never `None`): an item whose field was
absent in the input gets the single-element default list, and an item whose
field was present keeps it verbatim — including a present empty list. -/
theorem claim_C7_systems_defaulted (env : Env) (cfg : Config) (c : Config)
    (hok : Config.validate env cfg = .ok c) :
    (∃ items', c.items = some items')
    ∧ (∀ items', c.items = some items' →
        (∀ it ∈ items', it.supported_systems ≠ none)
        ∧ (∀ items, cfg.items = some items →
            ∀ i (hi1 : i < items.length) (hi2 : i < items'.length),
              ((items.get ⟨i, hi1⟩).supported_systems = none →
                (items'.get ⟨i, hi2⟩).supported_systems = some [SchemeSystem.default])
              ∧ (∀ l, (items.get ⟨i, hi1⟩).supported_systems = some l →
                  (items'.get ⟨i, hi2⟩).supported_systems = some l))) := by
  obtain ⟨items0, itemsM, h1, h2, _, hceq⟩ := validate_ok_inv hok
  constructor
  · exact ⟨itemsM, by rw [hceq]; rfl⟩
  · intro items' hc
    have hcM : c.items = some itemsM := by rw [hceq]; rfl
    rw [hc] at hcM
    injection hcM with hMM
    constructor
    · intro it hmem
      rw [hMM] at hmem
      obtain ⟨a, _, hna⟩ := mapItems_out_mem env h2 it hmem
      exact (normalizeItem_ok_systems hna).1
    · intro items hi i hi1 hi2
      have hpt := (validate_ok_items_pointwise hok hi hc).2 i hi1 hi2
      exact ⟨fun hn => (normalizeItem_ok_systems hpt).2.1 hn,
             fun l hl => (normalizeItem_ok_systems hpt).2.2 l hl⟩

/-- Witness for the amended claim C7: an item with absent supported-systems
comes back with the single-element default list. -/
theorem claim_C7_witness :
    ({ mkItem "a" "/home/u/themes" with
        supported_systems := some [SchemeSystem.base16] } : ConfigItem).supported_systems
      = some [SchemeSystem.default] :=
  (((claim_C7_systems_defaulted env5w cfgTildeOnly cfgTildeOnlyOut (by decide)).2
    _ rfl).2 _ rfl 0 (by decide) (by decide)).1 rfl

/-- Claim C9, counterexample: a valid loaded config carrying a root `hooks`
list and an item `theme-file-extension` renders to exactly the same text as
its hookless counterpart, and reloading that text yields a config whose
`hooks` is absent and whose item lost its extension — so "rendering and
reloading produces an equivalent Config in every field (including hooks and
theme_file_extension)" is false as stated. -/
theorem claim_C9_counterexample :
    Config.validate envT cfgWithHooks = .ok cfgWithHooks
    ∧ cfgWithHooks.hooks = some ["echo hi"]
    ∧ cfgWithoutHooks.hooks = none
    ∧ renderConfig cfgWithHooks = renderConfig cfgWithoutHooks
    ∧ parseRendered (renderConfig cfgWithHooks) = some cfgReloaded
    ∧ cfgReloaded.hooks = none
    ∧ cfgReloaded.items ≠ cfgWithHooks.items := by decide

/-- Claim C9, amended: for every renderable config (set shell,
quote/newline-free strings, no empty hook string, set supported-systems),
re-parsing the rendered text yields the same config except for the fields
`Display` does not render — the root `hooks` and each item's
`theme_file_extension` come back unset, and an empty items list comes back
as an absent `items` key; when the reloaded config passes validation in the
ambient environment, validation returns it unchanged, completing the
reload. -/
theorem claim_C9_roundtrip (env : Env) (c : Config) (hr : renderableB c = true) :
    parseRendered (renderConfig c) = some (eraseUnrendered c)
    ∧ (revalidatableB env (eraseUnrendered c) = true →
        Config.validate env (eraseUnrendered c) = .ok (eraseUnrendered c)) :=
  ⟨parseRendered_render hr, fun h => validate_fixpoint h⟩

/-- Witness for the amended claim C9 at a concrete loaded config. -/
theorem claim_C9_witness :
    parseRendered (renderConfig cfgWithHooks) = some (eraseUnrendered cfgWithHooks)
    ∧ Config.validate envT (eraseUnrendered cfgWithHooks) =
      .ok (eraseUnrendered cfgWithHooks) :=
  ⟨(claim_C9_roundtrip envT cfgWithHooks (by decide)).1,
   (claim_C9_roundtrip envT cfgWithHooks (by decide)).2 (by decide)⟩
